import Mathlib

/-!
Verification of `enrich_refuges.py` against its specification.

The script enriches a GeoJSON collection of mountain shelters with photo
URLs, amenity flags and a timestamp.  We shallowly embed the relevant
Python functions (`normalize_abs`, `extract_photos_from_html`,
`summarize_amenities`, `fetch_point_html`, `process_feature`, and the
collection loop of `main`) as executable Lean definitions over a model of
Python values, and prove or refute the frozen claims about them.

Library functions that the script calls (`json.loads`, `BeautifulSoup`,
`requests.Session.get`) are modelled as explicit parameters; everything
else is translated line by line from the source.
-/

set_option autoImplicit false

/-- Model of a Python value as it occurs in the GeoJSON property bags of
`enrich_refuges.py`: `None`, booleans, integers, strings, lists and
string-keyed dicts (dicts are association lists in insertion order;
JSON numbers are modelled as integers — no float reaches any of the
code paths the claims are about). -/
inductive Value where
  | vNone
  | vBool (b : Bool)
  | vInt (n : Int)
  | vStr (s : String)
  | vList (xs : List Value)
  | vDict (xs : List (String × Value))

/-- A Python dict with string keys, in insertion order. -/
abbrev PDict := List (String × Value)

/-- Python truthiness (`bool(v)`) for the modelled values. -/
def truthy : Value → Bool
  | .vNone => false
  | .vBool b => b
  | .vInt n => if n = 0 then false else true
  | .vStr s => if s = "" then false else true
  | .vList xs => if xs.isEmpty then false else true
  | .vDict xs => if xs.isEmpty then false else true

/-- `d.get(k)` returning `none` when the key is absent. -/
def dget : PDict → String → Option Value
  | [], _ => none
  | (k', v') :: rest, k => if k' = k then some v' else dget rest k

/-- `d.get(k)`, with Python's `None` default for a missing key. -/
def dgetV (d : PDict) (k : String) : Value :=
  (dget d k).getD .vNone

/-- `d[k] = v`: replace the value of an existing key in place (position
preserved), or append a new entry. -/
def dset : PDict → String → Value → PDict
  | [], k, v => [(k, v)]
  | (k', v') :: rest, k, v =>
    if k' = k then (k, v) :: rest else (k', v') :: dset rest k v

mutual

/-- Model of Python `repr(v)` for the modelled values. -/
def pyRepr : Value → String
  | .vNone => "None"
  | .vBool true => "True"
  | .vBool false => "False"
  | .vInt n => toString n
  | .vStr s => "'" ++ s ++ "'"
  | .vList xs => "[" ++ String.intercalate ", " (pyReprList xs) ++ "]"
  | .vDict xs => "\x7b" ++ String.intercalate ", " (pyReprPairs xs) ++ "\x7d"

/-- `repr` of the elements of a list value. -/
def pyReprList : List Value → List String
  | [] => []
  | v :: vs => pyRepr v :: pyReprList vs

/-- `repr` of the entries of a dict value. -/
def pyReprPairs : List (String × Value) → List String
  | [] => []
  | (k, v) :: ps => ("'" ++ k ++ "': " ++ pyRepr v) :: pyReprPairs ps

end

/-- Model of Python `str(v)`: the string itself for strings, `repr`
otherwise (matching `str` on `None`, booleans, ints, lists, dicts). -/
def pyStr : Value → String
  | .vStr s => s
  | v => pyRepr v

/-- The whitespace characters removed by Python's `str.strip()`
(ASCII subset). -/
def pySpace (c : Char) : Bool :=
  c = ' ' || c = '\t' || c = '\n' || c = '\r' ||
    c = Char.ofNat 11 || c = Char.ofNat 12

/-- Model of Python `str.strip()`. -/
def pyStrip (s : String) : String :=
  ⟨((s.data.dropWhile pySpace).reverse.dropWhile pySpace).reverse⟩

/-- Digit string to numeral. -/
def digitsToNat (cs : List Char) : Nat :=
  cs.foldl (fun a c => a * 10 + (c.toNat - 48)) 0

/-- Model of Python `int(s)` on a string: optional surrounding
whitespace, optional sign, then one or more ASCII digits; `none` models
the `ValueError` raised on anything else (underscore digit grouping is
not modelled — no such input arises here). -/
def parseIntStr (s : String) : Option Int :=
  match (pyStrip s).data with
  | '+' :: rest =>
      if rest ≠ [] ∧ rest.all Char.isDigit then some (digitsToNat rest) else none
  | '-' :: rest =>
      if rest ≠ [] ∧ rest.all Char.isDigit then some (-(digitsToNat rest : Int)) else none
  | rest =>
      if rest ≠ [] ∧ rest.all Char.isDigit then some (digitsToNat rest) else none

/-! ### URL Normalizer (`normalize_abs`, source lines 37, 45-52) -/

/-- The fixed base origin `BASE = "https://www.refuges.info"`. -/
def BASE : String := "https://www.refuges.info"

/-- `p` is a prefix of `s`, on character lists. -/
def listPfx : List Char → List Char → Bool
  | [], _ => true
  | _ :: _, [] => false
  | p :: ps, c :: cs => p = c && listPfx ps cs

/-- Model of Python `s.startswith(p)`. -/
def strStartsWith (s p : String) : Bool :=
  listPfx p.data s.data

/-- Characters allowed in a URL scheme after the leading letter. -/
def isSchemeChar (c : Char) : Bool :=
  c.isAlphanum || c = '+' || c = '-' || c = '.'

/-- Helper for `splitScheme`: scan up to the first `:`. -/
def splitSchemeAux : List Char → List Char → Option (List Char × List Char)
  | acc, ':' :: rest => some (acc.reverse, rest)
  | acc, c :: rest =>
      if isSchemeChar c then splitSchemeAux (c :: acc) rest else none
  | _, [] => none

/-- Model of `urllib.parse`'s scheme recognition: a URL has a scheme iff
it starts with a letter followed by letters, digits, `+`, `-` or `.` and
then a `:`.  Returns the scheme (not lowercased) and the remainder. -/
def splitScheme (url : String) : Option (String × String) :=
  match url.data with
  | [] => none
  | c :: rest =>
      if c.isAlpha then
        (splitSchemeAux [c] rest).map (fun p => (⟨p.1⟩, ⟨p.2⟩))
      else none

/-- Split a character list at the first occurrence of `c`; the second
component is `none` when `c` does not occur. -/
def splitOnFirst (c : Char) : List Char → List Char × Option (List Char)
  | [] => ([], none)
  | x :: xs =>
      if x = c then ([], some xs)
      else
        let r := splitOnFirst c xs
        (x :: r.1, r.2)

/-- Split a character list on every occurrence of `c` (at least one
segment is always produced). -/
def splitCharAux (c : Char) : List Char → List Char → List (List Char)
  | acc, [] => [acc.reverse]
  | acc, x :: xs =>
      if x = c then acc.reverse :: splitCharAux c [] xs
      else splitCharAux c (x :: acc) xs

/-- Dot-segment removal for relative-URL resolution: `.` segments are
dropped, `..` pops the previous segment, a trailing `.` or `..` leaves a
trailing slash. -/
def rdsegs : List (List Char) → List (List Char) → List (List Char)
  | [], stack => stack.reverse
  | ['.'] :: [], stack => ([] :: stack).reverse
  | ['.'] :: rest, stack => rdsegs rest stack
  | ['.', '.'] :: [], stack => ([] :: stack.tail).reverse
  | ['.', '.'] :: rest, stack => rdsegs rest stack.tail
  | s :: rest, stack => rdsegs rest (s :: stack)

/-- Resolve a path reference against the (empty) base path of `BASE`:
drop a leading `/`, split into segments, remove dot segments, and
re-assemble with a leading `/`. -/
def resolvePath (p : List Char) : String :=
  let rel := if listPfx ['/'] p then p.drop 1 else p
  let segs := rdsegs (splitCharAux '/' [] rel) []
  "/" ++ String.intercalate "/" (segs.map (fun s => (⟨s⟩ : String)))

/-- Resolve a scheme-less, non-network-path reference (path, query and
fragment) against `BASE`, whose own path, query and fragment are empty. -/
def resolveRef (ref : String) : String :=
  let pf := splitOnFirst '#' ref.data
  let pq := splitOnFirst '?' pf.1
  let pathPart := if pq.1 = [] then "" else resolvePath pq.1
  pathPart ++
    (match pq.2 with | some q => "?" ++ (⟨q⟩ : String) | none => "") ++
    (match pf.2 with | some f => "#" ++ (⟨f⟩ : String) | none => "")

/-- Model of `urllib.parse.urljoin(BASE, url)` specialised to the fixed
base `https://www.refuges.info` (empty path, query and fragment): a URL
whose scheme differs from `https` is returned unchanged; an `https`
reference or scheme-less reference with an authority (`//...`) keeps its
authority; otherwise the reference is resolved against the base
authority. -/
def urljoin_base (url : String) : String :=
  if url = "" then BASE
  else
    match splitScheme url with
    | some (sch, rest) =>
        if (⟨sch.data.map Char.toLower⟩ : String) ≠ "https" then url
        else if strStartsWith rest "//" then "https:" ++ rest
        else BASE ++ resolveRef rest
    | none =>
        if strStartsWith url "//" then "https:" ++ url
        else BASE ++ resolveRef url

/-- `normalize_abs` (source lines 45-52): empty input unchanged;
absolute `http://`/`https://` unchanged; scheme-relative `//` prefixed
with `https:`; otherwise joined onto `BASE`. -/
def normalize_abs (url : String) : String :=
  if url = "" then url
  else if strStartsWith url "http://" || strStartsWith url "https://" then url
  else if strStartsWith url "//" then "https:" ++ url
  else urljoin_base url

/-! ### Photo Extractor (`extract_photos_from_html`, source lines 39-43, 54-78) -/

/-- One `<img>` element as produced by `BeautifulSoup.find_all("img")`:
its `src` and `data-src` attributes (absent attribute = `none`). -/
structure Img where
  src : Option String
  dataSrc : Option String

/-- Case-insensitive literal match: consume `lit` from the front of
`cs`, comparing lowercased input characters against the (lowercase)
literal; returns the remainder on success. -/
def matchLitCI : List Char → List Char → Option (List Char)
  | [], cs => some cs
  | _ :: _, [] => none
  | l :: ls, c :: cs => if c.toLower = l then matchLitCI ls cs else none

/-- Match `/photos_points/\d+<suffix>` at the head of `cs`,
case-insensitively.  The digit run is greedy; since every suffix starts
with a non-digit, greedy matching is exact.  The end of the string is
not anchored, as with `re.search`. -/
def patPhotos (suffix : List Char) (cs : List Char) : Bool :=
  match matchLitCI "/photos_points/".data cs with
  | none => false
  | some rest =>
      match rest with
      | [] => false
      | c :: cs' =>
          c.isDigit && (matchLitCI suffix (cs'.dropWhile Char.isDigit)).isSome

/-- `re.search`: try the head-anchored matcher at every position. -/
def reSearch (p : List Char → Bool) : List Char → Bool
  | [] => p []
  | c :: cs => p (c :: cs) || reSearch p cs

/-- `PHOTO_PATTERNS` (source lines 39-43): an attribute value matches if
any of the three case-insensitive patterns
`/photos_points/\d+-reduite\.jpeg`, `/photos_points/\d+\.jpg`,
`/photos_points/\d+\.jpeg` is found in it.  The source tries the
patterns in order and stops at the first hit, which appends the value
exactly once — the same as this disjunction. -/
def matchesPhotoPattern (s : String) : Bool :=
  reSearch (patPhotos "-reduite.jpeg".data) s.data ||
  reSearch (patPhotos ".jpg".data) s.data ||
  reSearch (patPhotos ".jpeg".data) s.data

/-- One scan pass of the extractor (source lines 57-62 for `src`, 64-69
for `data-src`): for each `img`, read the attribute with `""` default,
strip it, and collect it when it matches a photo pattern. -/
def collectPass (get : Img → Option String) (imgs : List Img) : List String :=
  imgs.filterMap (fun img =>
    let src := pyStrip ((get img).getD "")
    if matchesPhotoPattern src then some src else none)

/-- The `uniq`/`seen` loop of the extractor (source lines 70-78): each
collected URL is absolutised with `normalize_abs` and appended only if
its normalized form was not seen before. -/
def dedupeNorm (seen : List String) : List String → List String
  | [] => []
  | u :: rest =>
      let absu := normalize_abs u
      if absu ∈ seen then dedupeNorm seen rest
      else absu :: dedupeNorm (absu :: seen) rest

/-- Claim-side definition for C7, following the spec's words
"deduplicate by normalized value preserving first-occurrence order":
keep the head, then dedup the tail with the later copies of the head
removed.  It is compared with the source's `seen`-set loop
(`dedupeNorm`) in the C7 theorem. -/
def firstDedup : List String → List String
  | [] => []
  | x :: xs => x :: firstDedup (xs.filter (fun y => y ≠ x))
termination_by l => l.length
decreasing_by
  simp_wf
  exact Nat.lt_succ_of_le (List.length_filter_le _ _)

/-- `extract_photos_from_html` on the parsed `<img>` elements of the
document: a full pass over `src` attributes, then a full pass over
`data-src` attributes, then normalize-and-dedupe. -/
def extract_photos (imgs : List Img) : List String :=
  dedupeNorm [] (collectPass (·.src) imgs ++ collectPass (·.dataSrc) imgs)

/-- `extract_photos_from_html` (source lines 54-78), with the HTML
parser (`BeautifulSoup(html, "html.parser").find_all("img")`) supplied
as the parameter `soup`; the parser is lenient and total. -/
def extract_photos_from_html (soup : String → List Img) (html : String) :
    List String :=
  extract_photos (soup html)

/-! ### Amenity Summarizer (`summarize_amenities`, source lines 80-127) -/

/-- Model of `json.loads` restricted to how the script uses it: it is
only called on strings starting with `\x7b`, where a successful parse
necessarily yields a JSON object; `none` models the exception raised on
malformed text. -/
abbrev JsonParse := String → Option PDict

/-- The `AmenitySet` record: six extracted flags plus the two derived
flags `couchage` and `feu`. -/
structure Amenities where
  eau : Bool
  bois : Bool
  poele : Bool
  latrines : Bool
  cheminee : Bool
  couvertures : Bool
  couchage : Bool
  feu : Bool
deriving DecidableEq

/-- The resolution applied to both nested structures (source lines
82-88 for `info_comp`, 101-106 for `places`): a falsy value degrades to
the empty dict; a string starting with `\x7b` is JSON-parsed, a parse
failure degrading to the empty dict; anything else is kept as is. -/
def resolve_nested (jp : JsonParse) (v : Value) : Value :=
  let info := if truthy v then v else .vDict []
  match info with
  | .vStr s => if strStartsWith s "\x7b" then .vDict ((jp s).getD []) else .vStr s
  | other => other

/-- The per-key extraction inside `getv` (source line 89): if the raw
value is a dict take its `valeur` sub-field, otherwise use the raw value
itself (`{"valeur": raw}.get("valeur")`). -/
def extract_raw (d : PDict) (k : String) : Value :=
  match dgetV d k with
  | .vDict sub => dgetV sub "valeur"
  | v => v

/-- `v or ""`: the falsy-to-empty-string step of `getv`. -/
def orEmptyStr (v : Value) : Value :=
  if truthy v then v else .vStr ""

/-- The `getv` lambda (source line 89) in the case where `info` is a
dict: `str(extracted or "").strip()`.  When `info` is not a dict the
lambda raises `AttributeError` (`info.get` does not exist); that case is
handled in `summarize_amenities` below. -/
def getv (d : PDict) (k : String) : String :=
  pyStrip (pyStr (orEmptyStr (extract_raw d k)))

/-- `X or "0"` for the capacity raw value. -/
def orZeroStr (v : Value) : Value :=
  if truthy v then v else .vStr "0"

/-- The capacity string `str((places.get("valeur") if isinstance(places,
dict) else places) or "0")` (source line 108). -/
def capacity_string (jp : JsonParse) (props : PDict) : String :=
  let places := resolve_nested jp (dgetV props "places")
  let capRaw := match places with
    | .vDict pd => dgetV pd "valeur"
    | v => v
  pyStr (orZeroStr capRaw)

/-- The capacity `cap` (source lines 107-110): the capacity string
parsed as an integer, any failure caught and degraded to `0`. -/
def compute_capacity (jp : JsonParse) (props : PDict) : Int :=
  (parseIntStr (capacity_string jp props)).getD 0

/-- The amenity record built in the dict case (source lines 92-114):
six extracted flags, then `couchage` and `feu` derived from capacity
and the other flags. -/
def amenities_of (jp : JsonParse) (props : PDict) (d : PDict) : Amenities :=
  let eau := getv d "eau" == "1"
  let bois := getv d "bois" == "1"
  let poele := getv d "poele" == "1"
  let latrines := getv d "latrines" == "1"
  let cheminee := getv d "cheminee" == "1"
  let couvertures := getv d "couvertures" == "1"
  let cap := compute_capacity jp props
  let couchage := decide (0 < cap) || couvertures
  let feu := poele || cheminee
  ⟨eau, bois, poele, latrines, cheminee, couvertures, couchage, feu⟩

/-- The display text (source lines 116-126): emoji-labelled tags for
`couchage`, `feu`, `eau`, `latrines` in that order, joined with a
middle dot, or the placeholder when no tag is set. -/
def amenities_text_of (a : Amenities) : String :=
  let tags :=
    (if a.couchage then ["🛏️ couchage"] else []) ++
    (if a.feu then ["🔥 feu"] else []) ++
    (if a.eau then ["💧 eau"] else []) ++
    (if a.latrines then ["🚽 latrines"] else [])
  if tags.isEmpty then "—" else String.intercalate " · " tags

/-- `summarize_amenities` (source lines 80-127), returning `none` when
the Python function raises: after resolving `info_comp`, a truthy
non-dict `info` makes the very first `getv` call raise
`AttributeError`.  Otherwise the six flags are extracted, `couchage` and
`feu` are derived, and the display text is built. -/
def summarize_amenities (jp : JsonParse) (props : PDict) :
    Option (Amenities × String) :=
  match resolve_nested jp (dgetV props "info_comp") with
  | .vDict d =>
      let a := amenities_of jp props d
      some (a, amenities_text_of a)
  | _ => none

/-- A parse function that always fails, for concrete evaluations. -/
def jpFail : JsonParse := fun _ => none

/-! ### Page Fetcher (`fetch_point_html`, source lines 129-140) -/

/-- The outcome of one HTTP GET attempt: either a response (with status
code and body; `requests`' `r.ok` is `status_code < 400`) or a raised
transport-level exception. -/
inductive AttemptOutcome where
  | resp (status : Nat) (text : String)
  | exc (msg : String)
deriving DecidableEq

/-- The error `fetch_point_html` can raise: `RuntimeError(f"HTTP
{status}")`, the recorded transport exception, or `RuntimeError("unknown
error")` when no attempt ever ran. -/
inductive FetchErr where
  | http (status : Nat)
  | transport (msg : String)
  | unknown
deriving DecidableEq

/-- Whether an attempt outcome is a failure (non-ok status or
exception). -/
def attempt_fails : AttemptOutcome → Bool
  | .resp status _ => if status < 400 then false else true
  | .exc _ => true

/-- The error recorded for a failed attempt (`last_err`). -/
def attempt_err : AttemptOutcome → FetchErr
  | .resp status _ => .http status
  | .exc m => .transport m

/-- The duration of the sleep after failed attempt `i` (zero-based):
`backoff * (2 ** i)` (source line 139). -/
def sleepDelay (backoff : ℚ) (i : Nat) : ℚ :=
  backoff * 2 ^ i

/-- The retry loop of `fetch_point_html` (source lines 131-139): `n`
attempts remain, `i` is the current zero-based attempt index, `lastErr`
is the recorded error.  On an ok response the body is returned at once;
on any failure the error is recorded and the loop sleeps
`backoff * 2 ** i` — unconditionally, the sleep is the last statement of
the loop body — before the next iteration.  Returns the result together
with the list of sleep durations, in order. -/
def fetchGo (att : Nat → AttemptOutcome) (backoff : ℚ) :
    Nat → Nat → Option FetchErr → Except FetchErr String × List ℚ
  | 0, _, lastErr => (.error (lastErr.getD .unknown), [])
  | n + 1, i, _ =>
      match att i with
      | .resp status text =>
          if status < 400 then (.ok text, [])
          else
            let r := fetchGo att backoff n (i + 1) (some (.http status))
            (r.1, sleepDelay backoff i :: r.2)
      | .exc m =>
          let r := fetchGo att backoff n (i + 1) (some (.transport m))
          (r.1, sleepDelay backoff i :: r.2)

/-- `fetch_point_html` (source lines 129-140) with the network modelled
by `att` (the outcome of the `i`-th GET attempt); default parameters
`retries=3`, `backoff=0.8` are passed by the one call site.  The
`timeout` and `headers` arguments do not affect the returned value and
are not modelled.  Returns the result (`Except` models raising) and the
sleep-duration trace. -/
def fetch_point_html (att : Nat → AttemptOutcome) (retries : Nat)
    (backoff : ℚ) : Except FetchErr String × List ℚ :=
  fetchGo att backoff retries 0 none

/-! ### Feature Enricher (`process_feature`, source lines 142-167) -/

/-- `props = feat.get("properties") or {}` (source line 143). -/
def feature_props (feat : PDict) : Value :=
  let p := dgetV feat "properties"
  if truthy p then p else .vDict []

/-- `page_url = props.get("lien") or props.get("url") or ""` (source
line 144). -/
def page_url_of (props : PDict) : Value :=
  let l := dgetV props "lien"
  let u := if truthy l then l else dgetV props "url"
  if truthy u then u else .vStr ""

/-- The `try` block of `process_feature` (source lines 148-152): fetch
the page and extract photos, any failure degrading to the empty list.
`fetchHtml` stands for `fetch_point_html(page_url, session=session)`
with the ambient network; `soup` is the HTML parser. -/
def compute_photos (soup : String → List Img)
    (fetchHtml : Value → Except FetchErr String) (url : Value) : List String :=
  match fetchHtml url with
  | .ok html => extract_photos_from_html soup html
  | .error _ => []

/-- The `amenities` dict written back into the property bag (source
lines 92-114), in insertion order. -/
def amenities_value (a : Amenities) : Value :=
  .vDict [("eau", .vBool a.eau), ("bois", .vBool a.bois),
          ("poele", .vBool a.poele), ("latrines", .vBool a.latrines),
          ("cheminee", .vBool a.cheminee), ("couvertures", .vBool a.couvertures),
          ("couchage", .vBool a.couchage), ("feu", .vBool a.feu)]

/-- `process_feature` (source lines 142-167), returning `none` when the
Python function raises: a truthy non-dict `properties` value makes
`props.get` raise, and `summarize_amenities` may raise (see its model).
`now` models `dt.datetime.utcnow().isoformat(timespec="seconds")`.  The
courtesy sleep (`time.sleep(delay)`, lines 165-166) does not affect the
returned feature and is not modelled. -/
def process_feature (jp : JsonParse) (soup : String → List Img)
    (fetchHtml : Value → Except FetchErr String) (now : String)
    (feat : PDict) : Option PDict :=
  match feature_props feat with
  | .vDict props =>
      let url := page_url_of props
      if truthy url = false then some feat
      else
        let photos := compute_photos soup fetchHtml url
        let thumb : Value := match photos with
          | [] => .vNone
          | t :: _ => .vStr t
        match summarize_amenities jp props with
        | none => none
        | some (amen, amenText) =>
            let p1 := dset props "photos" (.vList (photos.map .vStr))
            let p2 := if truthy thumb then dset p1 "thumbnail" thumb else p1
            let p3 := dset p2 "amenities" (amenities_value amen)
            let p4 := dset p3 "amenities_text" (.vStr amenText)
            let p5 := dset p4 "photos_at" (.vStr (now ++ "Z"))
            some (dset feat "properties" (.vDict p5))
  | _ => none

/-- A parser returning no `<img>` elements, for concrete evaluations. -/
def soupEmpty : String → List Img := fun _ => []

/-- A fetch that fails like `fetch_point_html` does after exhausting its
3 attempts against a server that always answers 500. -/
def fetchAlways500 : Value → Except FetchErr String :=
  fun _ => (fetch_point_html (fun _ => .resp 500 "oops") 3 (4/5)).1

/-! ### Pipeline Driver (collection loop of `main`, source lines 185-200) -/

/-- Task submission (source lines 189-191): one `process_feature` task
per feature, in input order; `futs[i]` is the future of the `i`-th
feature. -/
def submit_tasks {α β : Type} (process : α → β) (feats : List α) : List β :=
  feats.map process

/-- The collection loop (source lines 193-194): results are appended in
the order `concurrent.futures.as_completed` yields the futures, given
here as `completionOrder` (the list of future indices in completion
order — any permutation of `0..n-1` can occur once two or more workers
run). -/
def collect_as_completed {β : Type} (futs : List β)
    (completionOrder : List Nat) : List β :=
  completionOrder.filterMap (fun i => futs[i]?)

/-- The output feature list of `main` in the no-limit case (source lines
185-200): submit in input order, collect in completion order. -/
def main_out_features {α β : Type} (process : α → β) (feats : List α)
    (completionOrder : List Nat) : List β :=
  collect_as_completed (submit_tasks process feats) completionOrder

/-! ### Helper lemmas -/

theorem listPfx_self (a : List Char) : ∀ b, listPfx a (a ++ b) = true := by
  induction a with
  | nil => intro b; rfl
  | cons c cs ih => intro b; simp [listPfx, ih]

theorem listPfx_append_left (a : List Char) :
    ∀ b c, listPfx (a ++ b) (a ++ c) = listPfx b c := by
  induction a with
  | nil => intro b c; rfl
  | cons x xs ih => intro b c; simp [listPfx, ih]

theorem listPfx_exists {p s : List Char} (h : listPfx p s = true) :
    ∃ t, s = p ++ t := by
  induction p generalizing s with
  | nil => exact ⟨s, rfl⟩
  | cons c cs ih =>
    cases s with
    | nil => simp [listPfx] at h
    | cons x xs =>
      simp only [listPfx, Bool.and_eq_true, decide_eq_true_eq] at h
      obtain ⟨rfl, h2⟩ := h
      obtain ⟨t, rfl⟩ := ih h2
      exact ⟨t, rfl⟩

theorem strStartsWith_append (p t : String) :
    strStartsWith (p ++ t) p = true := by
  simp [strStartsWith, String.data_append, listPfx_self]

theorem strStartsWith_ne_empty {s p : String} (hp : p.data ≠ [])
    (h : strStartsWith s p = true) : s ≠ "" := by
  obtain ⟨t, ht⟩ := listPfx_exists h
  intro hs
  subst hs
  simp at ht
  exact hp ht.1

theorem dget_dset_self (k : String) (v : Value) :
    ∀ d : PDict, dget (dset d k v) k = some v := by
  intro d
  induction d with
  | nil => simp [dset, dget]
  | cons e rest ih =>
    obtain ⟨k', v'⟩ := e
    by_cases hk : k' = k
    · simp [dset, hk, dget]
    · simp [dset, hk, dget, ih]

theorem dget_dset_ne (k k' : String) (v : Value) (hk : k ≠ k') :
    ∀ d : PDict, dget (dset d k v) k' = dget d k' := by
  intro d
  induction d with
  | nil => simp [dset, dget, hk]
  | cons e rest ih =>
    obtain ⟨k0, v0⟩ := e
    by_cases h0 : k0 = k
    · subst h0
      simp [dset, dget, hk]
    · simp [dset, h0, dget, ih]

theorem dgetV_dset_self (d : PDict) (k : String) (v : Value) :
    dgetV (dset d k v) k = v := by
  simp [dgetV, dget_dset_self]

theorem dgetV_dset_ne (d : PDict) (k k' : String) (v : Value) (hk : k ≠ k') :
    dgetV (dset d k v) k' = dgetV d k' := by
  simp [dgetV, dget_dset_ne _ _ _ hk]

/-! ### Claims C8 and C9: the URL normalizer -/

theorem normalize_abs_of_https {s : String}
    (h : strStartsWith s "https://" = true) : normalize_abs s = s := by
  have hne : s ≠ "" := strStartsWith_ne_empty (by decide) h
  unfold normalize_abs
  rw [if_neg hne, if_pos (by simp [h])]

theorem urljoin_base_starts (url : String) :
    urljoin_base url = url ∨
      strStartsWith (urljoin_base url) "https://" = true := by
  unfold urljoin_base
  by_cases h0 : url = ""
  · right
    rw [if_pos h0]
    decide
  rw [if_neg h0]
  cases hs : splitScheme url with
  | some p =>
    obtain ⟨sch, rest⟩ := p
    dsimp only
    by_cases hsch : (⟨sch.data.map Char.toLower⟩ : String) ≠ "https"
    · left; rw [if_pos hsch]
    · right
      rw [if_neg hsch]
      by_cases hrest : strStartsWith rest "//" = true
      · rw [if_pos hrest]
        obtain ⟨t, ht⟩ := listPfx_exists hrest
        have : ("https:" ++ rest).data = "https://".data ++ t := by
          simp [String.data_append, ht]
        rw [strStartsWith, this]
        exact listPfx_self _ _
      · rw [if_neg hrest]
        have : BASE ++ resolveRef rest = "https://" ++ ("www.refuges.info" ++ resolveRef rest) := by
          simp [BASE, ← String.append_assoc]
        rw [this]
        exact strStartsWith_append _ _
  | none =>
    right
    dsimp only
    by_cases hrel : strStartsWith url "//" = true
    · rw [if_pos hrel]
      obtain ⟨t, ht⟩ := listPfx_exists hrel
      have : ("https:" ++ url).data = "https://".data ++ t := by
        simp [String.data_append, ht]
      rw [strStartsWith, this]
      exact listPfx_self _ _
    · rw [if_neg hrel]
      have : BASE ++ resolveRef url = "https://" ++ ("www.refuges.info" ++ resolveRef url) := by
        simp [BASE, ← String.append_assoc]
      rw [this]
      exact strStartsWith_append _ _

theorem normalize_abs_starts (url : String) :
    normalize_abs url = url ∨
      strStartsWith (normalize_abs url) "https://" = true := by
  unfold normalize_abs
  by_cases h0 : url = ""
  · left; rw [if_pos h0]
  rw [if_neg h0]
  by_cases h1 : (strStartsWith url "http://" || strStartsWith url "https://") = true
  · left; rw [if_pos h1]
  rw [if_neg h1]
  by_cases h2 : strStartsWith url "//" = true
  · right
    rw [if_pos h2]
    obtain ⟨t, ht⟩ := listPfx_exists h2
    have : ("https:" ++ url).data = "https://".data ++ t := by
      simp [String.data_append, ht]
    rw [strStartsWith, this]
    exact listPfx_self _ _
  · rw [if_neg h2]
    exact urljoin_base_starts url

/-- **C9**: the URL Normalizer is idempotent: a URL that is already
absolute (`http://` or `https://` prefix) is returned unchanged, and
applying `normalize_abs` twice equals applying it once, for every
string. -/
theorem claim9_idempotent :
    (∀ url : String,
        (strStartsWith url "http://" || strStartsWith url "https://") = true →
        normalize_abs url = url) ∧
    (∀ url : String, normalize_abs (normalize_abs url) = normalize_abs url) := by
  constructor
  · intro url h
    have hne : url ≠ "" := by
      rcases Bool.or_eq_true_iff.mp h with h' | h'
      · exact strStartsWith_ne_empty (by decide) h'
      · exact strStartsWith_ne_empty (by decide) h'
    unfold normalize_abs
    rw [if_neg hne, if_pos h]
  · intro url
    rcases normalize_abs_starts url with h | h
    · rw [h]; exact h
    · exact normalize_abs_of_https h

/-- **C9 witness**: concrete instantiation of both conjuncts. -/
theorem claim9_witness :
    normalize_abs "https://www.refuges.info/point/1" =
      "https://www.refuges.info/point/1" ∧
    normalize_abs (normalize_abs "a/b") = normalize_abs "a/b" :=
  ⟨claim9_idempotent.1 "https://www.refuges.info/point/1" (by decide),
   claim9_idempotent.2 "a/b"⟩

theorem splitScheme_of_http {url : String}
    (h : strStartsWith url "http://" = true) : splitScheme url ≠ none := by
  obtain ⟨t, ht⟩ := listPfx_exists h
  have ht' : url.data = 'h' :: 't' :: 't' :: 'p' :: ':' :: '/' :: '/' :: t := ht
  have : splitScheme url = some ("http", ⟨'/' :: '/' :: t⟩) := by
    unfold splitScheme
    rw [ht']
    rfl
  simp [this]

theorem splitScheme_of_https {url : String}
    (h : strStartsWith url "https://" = true) : splitScheme url ≠ none := by
  obtain ⟨t, ht⟩ := listPfx_exists h
  have ht' : url.data = 'h' :: 't' :: 't' :: 'p' :: 's' :: ':' :: '/' :: '/' :: t := ht
  have : splitScheme url = some ("https", ⟨'/' :: '/' :: t⟩) := by
    unfold splitScheme
    rw [ht']
    rfl
  simp [this]

theorem heads_clash {url : String} {c₁ c₂ : Char} {p₁ p₂ : List Char}
    (hne : c₁ ≠ c₂) (h₁ : listPfx (c₁ :: p₁) url.data = true)
    (h₂ : listPfx (c₂ :: p₂) url.data = true) : False := by
  obtain ⟨t₁, e₁⟩ := listPfx_exists h₁
  obtain ⟨t₂, e₂⟩ := listPfx_exists h₂
  rw [e₁] at e₂
  exact hne (List.cons.inj e₂).1

/-- **C8 counterexample**: the claim "for every url without a scheme
(including scheme-relative forms and the empty string) the result starts
with the fixed base origin" is false: the scheme-less
`"//example.com/a"` normalizes to `"https://example.com/a"`, which does
not start with `BASE`, and the empty string is returned unchanged. -/
theorem claim8_counterexample :
    splitScheme "//example.com/a" = none ∧
    normalize_abs "//example.com/a" = "https://example.com/a" ∧
    strStartsWith (normalize_abs "//example.com/a") BASE = false ∧
    normalize_abs "" = "" ∧
    strStartsWith (normalize_abs "") BASE = false := by decide

/-- **C8 (amended)**: for every *non-empty* url without a scheme that is
*not* scheme-relative, `normalize_abs` returns a URL starting with the
fixed base origin `https://www.refuges.info`; a scheme-relative
`//host/path` url is prefixed with `https:` (and hence need not start
with the base origin). -/
theorem claim8_base_origin :
    (∀ url : String, url ≠ "" → splitScheme url = none →
        strStartsWith url "//" = false →
        strStartsWith (normalize_abs url) BASE = true) ∧
    (∀ url : String, strStartsWith url "//" = true →
        normalize_abs url = "https:" ++ url) := by
  constructor
  · intro url h0 hsch hrel
    have hh1 : strStartsWith url "http://" = false := by
      cases hb : strStartsWith url "http://" with
      | false => rfl
      | true => exact absurd hsch (splitScheme_of_http hb)
    have hh2 : strStartsWith url "https://" = false := by
      cases hb : strStartsWith url "https://" with
      | false => rfl
      | true => exact absurd hsch (splitScheme_of_https hb)
    unfold normalize_abs
    rw [if_neg h0, if_neg (by simp [hh1, hh2]), if_neg (by simp [hrel])]
    unfold urljoin_base
    rw [if_neg h0, hsch]
    dsimp only
    rw [if_neg (by simp [hrel])]
    exact strStartsWith_append _ _
  · intro url h2
    have h0 : url ≠ "" := strStartsWith_ne_empty (by decide) h2
    have hh1 : strStartsWith url "http://" = false := by
      cases hb : strStartsWith url "http://" with
      | false => rfl
      | true =>
        exact (heads_clash (show ('h' : Char) ≠ '/' by decide)
          (show listPfx ('h' :: "ttp://".data) url.data = true from hb)
          (show listPfx ('/' :: "/".data) url.data = true from h2)).elim
    have hh2 : strStartsWith url "https://" = false := by
      cases hb : strStartsWith url "https://" with
      | false => rfl
      | true =>
        exact (heads_clash (show ('h' : Char) ≠ '/' by decide)
          (show listPfx ('h' :: "ttps://".data) url.data = true from hb)
          (show listPfx ('/' :: "/".data) url.data = true from h2)).elim
    unfold normalize_abs
    rw [if_neg h0, if_neg (by simp [hh1, hh2]), if_pos h2]

/-- **C8 witness**: both amended conjuncts at concrete inputs. -/
theorem claim8_witness :
    strStartsWith (normalize_abs "photos/1.jpg") BASE = true ∧
    normalize_abs "//www.refuges.info/a" = "https:" ++ "//www.refuges.info/a" :=
  ⟨claim8_base_origin.1 "photos/1.jpg" (by decide) (by decide) (by decide),
   claim8_base_origin.2 "//www.refuges.info/a" (by decide)⟩

/-! ### Claim C7: the photo extractor -/

theorem mem_dedupeNorm (x : String) :
    ∀ (l : List String) (seen : List String),
      x ∈ dedupeNorm seen l ↔ x ∈ l.map normalize_abs ∧ x ∉ seen := by
  intro l
  induction l with
  | nil => intro seen; simp [dedupeNorm]
  | cons u rest ih =>
    intro seen
    by_cases hm : normalize_abs u ∈ seen
    · rw [dedupeNorm, if_pos hm]
      rw [ih seen]
      simp only [List.map_cons, List.mem_cons]
      constructor
      · rintro ⟨h1, h2⟩; exact ⟨Or.inr h1, h2⟩
      · rintro ⟨h1 | h1, h2⟩
        · subst h1; exact absurd hm h2
        · exact ⟨h1, h2⟩
    · rw [dedupeNorm, if_neg hm]
      simp only [List.mem_cons, List.map_cons, ih (normalize_abs u :: seen)]
      constructor
      · rintro (rfl | ⟨h1, h2⟩)
        · exact ⟨Or.inl rfl, hm⟩
        · exact ⟨Or.inr h1, fun hx => h2 (Or.inr hx)⟩
      · rintro ⟨h1 | h1, h2⟩
        · exact Or.inl h1
        · by_cases hx : x = normalize_abs u
          · exact Or.inl hx
          · exact Or.inr ⟨h1, by rintro (h | h); exacts [hx h, h2 h]⟩

theorem dedupeNorm_sublist :
    ∀ (l : List String) (seen : List String),
      List.Sublist (dedupeNorm seen l) (l.map normalize_abs) := by
  intro l
  induction l with
  | nil => intro seen; simp [dedupeNorm]
  | cons u rest ih =>
    intro seen
    by_cases hm : normalize_abs u ∈ seen
    · rw [dedupeNorm, if_pos hm]
      exact (ih seen).cons _
    · rw [dedupeNorm, if_neg hm]
      exact (ih (normalize_abs u :: seen)).cons₂ _

theorem dedupeNorm_nodup :
    ∀ (l : List String) (seen : List String), (dedupeNorm seen l).Nodup := by
  intro l
  induction l with
  | nil => intro seen; simp [dedupeNorm]
  | cons u rest ih =>
    intro seen
    by_cases hm : normalize_abs u ∈ seen
    · rw [dedupeNorm, if_pos hm]; exact ih seen
    · rw [dedupeNorm, if_neg hm]
      refine List.nodup_cons.mpr ⟨fun hx => ?_, ih _⟩
      have := (mem_dedupeNorm _ rest (normalize_abs u :: seen)).mp hx
      exact this.2 (List.mem_cons_self _ _)

theorem firstDedup_nil : firstDedup [] = [] := by
  rw [firstDedup]

theorem firstDedup_cons (x : String) (xs : List String) :
    firstDedup (x :: xs) = x :: firstDedup (xs.filter (fun y => y ≠ x)) := by
  rw [firstDedup]

theorem filter_seen_cons (a : String) :
    ∀ (l seen : List String),
      (l.filter (fun y => y ∉ seen)).filter (fun y => y ≠ a) =
        l.filter (fun y => y ∉ a :: seen) := by
  intro l
  induction l with
  | nil => intro seen; rfl
  | cons x xs ih =>
    intro seen
    by_cases hx : x ∈ seen
    · simp [List.filter_cons, hx, ih seen]
    · by_cases hxa : x = a
      · subst hxa
        simp [List.filter_cons, hx, ih seen]
      · simp [List.filter_cons, hx, hxa, ih seen]

theorem dedupeNorm_eq_firstDedup :
    ∀ (l seen : List String),
      dedupeNorm seen l =
        firstDedup ((l.map normalize_abs).filter (fun y => y ∉ seen)) := by
  intro l
  induction l with
  | nil => intro seen; simp [dedupeNorm, firstDedup_nil]
  | cons u rest ih =>
    intro seen
    by_cases hm : normalize_abs u ∈ seen
    · rw [dedupeNorm, if_pos hm, ih seen]
      congr 1
      simp [List.filter_cons, hm]
    · rw [dedupeNorm, if_neg hm]
      have hsplit : ((u :: rest).map normalize_abs).filter (fun y => y ∉ seen) =
          normalize_abs u ::
            ((rest.map normalize_abs).filter (fun y => y ∉ seen)) := by
        simp [List.filter_cons, hm]
      rw [hsplit, firstDedup_cons, filter_seen_cons,
        ← ih (normalize_abs u :: seen)]

/-- **C7**: for every parsed document, the extractor's output equals
`firstDedup` — the claim's "deduplicate by normalized value preserving
first-occurrence order", written as an independent recursion — applied
to the normalized two-pass match list (all `src` matches across the
document, then all `data-src` matches); the equality pins down the
output and its order uniquely.  In particular the output has no
duplicates, is a sublist of the normalized match list, and contains
every element of it. -/
theorem claim7_extract_nodup_order (imgs : List Img) :
    extract_photos imgs =
      firstDedup ((collectPass (·.src) imgs ++ collectPass (·.dataSrc) imgs).map
        normalize_abs) ∧
    (extract_photos imgs).Nodup ∧
    List.Sublist (extract_photos imgs)
      ((collectPass (·.src) imgs ++ collectPass (·.dataSrc) imgs).map
        normalize_abs) ∧
    (∀ u, u ∈ (collectPass (·.src) imgs ++ collectPass (·.dataSrc) imgs).map
        normalize_abs → u ∈ extract_photos imgs) := by
  refine ⟨?_, dedupeNorm_nodup _ _, dedupeNorm_sublist _ _, fun u hu => ?_⟩
  · rw [extract_photos, dedupeNorm_eq_firstDedup]
    congr 1
    exact List.filter_eq_self.mpr (fun a _ => by simp)
  · rw [extract_photos, mem_dedupeNorm]
    simpa using hu

/-- **C7 witness**: a concrete document whose two-pass match list is
`[p1, p2, p1]` (the first photo appears again via `data-src`): the
output is `[p1, p2]` — first-occurrence order, not the `[p2, p1]` a
last-occurrence deduplication would give — and the membership
conjunct of the theorem is applied with its hypothesis discharged. -/
theorem claim7_witness :
    extract_photos
        [⟨some "/photos_points/1.jpg", some "/photos_points/1.jpg"⟩,
         ⟨some "/photos_points/2.jpg", none⟩] =
      ["https://www.refuges.info/photos_points/1.jpg",
       "https://www.refuges.info/photos_points/2.jpg"] ∧
    "https://www.refuges.info/photos_points/2.jpg" ∈
      extract_photos
        [⟨some "/photos_points/1.jpg", some "/photos_points/1.jpg"⟩,
         ⟨some "/photos_points/2.jpg", none⟩] :=
  ⟨by decide,
   (claim7_extract_nodup_order
      [⟨some "/photos_points/1.jpg", some "/photos_points/1.jpg"⟩,
       ⟨some "/photos_points/2.jpg", none⟩]).2.2.2
     "https://www.refuges.info/photos_points/2.jpg" (by decide)⟩

/-! ### Claims C5, C6 and C2: the amenity summarizer -/

theorem summarize_eq_some {jp : JsonParse} {props : PDict} {a : Amenities}
    {t : String} (h : summarize_amenities jp props = some (a, t)) :
    ∃ d, resolve_nested jp (dgetV props "info_comp") = .vDict d ∧
      a = amenities_of jp props d ∧ t = amenities_text_of a := by
  unfold summarize_amenities at h
  cases hinfo : resolve_nested jp (dgetV props "info_comp") <;> rw [hinfo] at h <;>
    simp at h
  exact ⟨_, rfl, h.1.symm, by rw [← h.1]; exact h.2.symm⟩

theorem getv_eq_one (d : PDict) (k : String) :
    (getv d k == "1") = (pyStrip (pyStr (extract_raw d k)) == "1") := by
  unfold getv orEmptyStr
  cases hv : extract_raw d k with
  | vNone => decide
  | vBool b => cases b <;> decide
  | vInt n =>
      by_cases hn : n = 0
      · subst hn; decide
      · simp [truthy, hn]
  | vStr s =>
      by_cases hs : s = ""
      · subst hs; decide
      · simp [truthy, hs]
  | vList xs =>
      cases xs with
      | nil => decide
      | cons y ys => simp [truthy]
  | vDict xs =>
      cases xs with
      | nil => decide
      | cons y ys => simp [truthy]

/-- **C5**: every produced AmenitySet satisfies
`couchage = (capacity > 0) OR couvertures` and
`feu = poele OR cheminee`; both derived flags are recomputed from the
extracted fields and the capacity, never read from the input bag. -/
theorem claim5_derived_flags (jp : JsonParse) (props : PDict) (a : Amenities)
    (t : String) (h : summarize_amenities jp props = some (a, t)) :
    a.couchage = (decide (0 < compute_capacity jp props) || a.couvertures) ∧
    a.feu = (a.poele || a.cheminee) := by
  obtain ⟨d, hd, ha, ht⟩ := summarize_eq_some h
  subst ha
  exact ⟨rfl, rfl⟩

/-- **C5 witness**: capacity 4 forces `couchage` even with
`couvertures` false, and `feu` follows `poele`. -/
theorem claim5_witness :
    ∃ a : Amenities,
      (summarize_amenities jpFail
          [("info_comp", .vDict [("poele", .vStr "1")]),
           ("places", .vDict [("valeur", .vStr "4")])]).isSome = true ∧
      a.couchage =
        (decide (0 < compute_capacity jpFail
            [("info_comp", .vDict [("poele", .vStr "1")]),
             ("places", .vDict [("valeur", .vStr "4")])]) || a.couvertures) ∧
      a.feu = (a.poele || a.cheminee) := by
  refine ⟨⟨false, false, true, false, false, false, true, true⟩, by decide, ?_⟩
  exact claim5_derived_flags jpFail
    [("info_comp", .vDict [("poele", .vStr "1")]),
     ("places", .vDict [("valeur", .vStr "4")])]
    ⟨false, false, true, false, false, false, true, true⟩
    "🛏️ couchage · 🔥 feu" (by decide)

/-- **C6**: when the facility structure resolves to a mapping, each of
the six flags is true iff the extracted value (the `valeur` sub-field
when the raw value is a mapping, else the raw value itself),
stringified and trimmed, equals `"1"`; the capacity is parsed as an
integer with parse failure or absent `places` degrading to zero, never
raising. -/
theorem claim6_flag_extraction :
    (∀ (jp : JsonParse) (props : PDict) (m : PDict),
        resolve_nested jp (dgetV props "info_comp") = .vDict m →
        ∃ a text, summarize_amenities jp props = some (a, text) ∧
          a.eau = (pyStrip (pyStr (extract_raw m "eau")) == "1") ∧
          a.bois = (pyStrip (pyStr (extract_raw m "bois")) == "1") ∧
          a.poele = (pyStrip (pyStr (extract_raw m "poele")) == "1") ∧
          a.latrines = (pyStrip (pyStr (extract_raw m "latrines")) == "1") ∧
          a.cheminee = (pyStrip (pyStr (extract_raw m "cheminee")) == "1") ∧
          a.couvertures = (pyStrip (pyStr (extract_raw m "couvertures")) == "1")) ∧
    (∀ (jp : JsonParse) (props : PDict) (n : Int),
        parseIntStr (capacity_string jp props) = some n →
        compute_capacity jp props = n) ∧
    (∀ (jp : JsonParse) (props : PDict),
        parseIntStr (capacity_string jp props) = none →
        compute_capacity jp props = 0) ∧
    (∀ (jp : JsonParse) (props : PDict),
        dgetV props "places" = .vNone → compute_capacity jp props = 0) := by
  refine ⟨fun jp props m hm => ?_, fun jp props n hn => ?_, fun jp props hn => ?_,
    fun jp props hp => ?_⟩
  · refine ⟨amenities_of jp props m, amenities_text_of (amenities_of jp props m), ?_,
      getv_eq_one m "eau", getv_eq_one m "bois", getv_eq_one m "poele",
      getv_eq_one m "latrines", getv_eq_one m "cheminee", getv_eq_one m "couvertures"⟩
    unfold summarize_amenities
    rw [hm]
  · unfold compute_capacity
    rw [hn]
    rfl
  · unfold compute_capacity
    rw [hn]
    rfl
  · unfold compute_capacity capacity_string
    rw [hp]
    rfl

/-- **C6 witness**: the characterization at a concrete mapping with
`eau` nested under `valeur`, plus absent capacity degrading to zero. -/
theorem claim6_witness :
    (∃ a text,
        summarize_amenities jpFail
          [("info_comp", .vDict [("eau", .vDict [("valeur", .vStr "1")])])] =
          some (a, text) ∧
        a.eau = (pyStrip (pyStr (extract_raw
            [("eau", .vDict [("valeur", .vStr "1")])] "eau")) == "1") ∧
        a.bois = (pyStrip (pyStr (extract_raw
            [("eau", .vDict [("valeur", .vStr "1")])] "bois")) == "1") ∧
        a.poele = (pyStrip (pyStr (extract_raw
            [("eau", .vDict [("valeur", .vStr "1")])] "poele")) == "1") ∧
        a.latrines = (pyStrip (pyStr (extract_raw
            [("eau", .vDict [("valeur", .vStr "1")])] "latrines")) == "1") ∧
        a.cheminee = (pyStrip (pyStr (extract_raw
            [("eau", .vDict [("valeur", .vStr "1")])] "cheminee")) == "1") ∧
        a.couvertures = (pyStrip (pyStr (extract_raw
            [("eau", .vDict [("valeur", .vStr "1")])] "couvertures")) == "1")) ∧
    compute_capacity jpFail [("nom", .vStr "x")] = 0 :=
  ⟨claim6_flag_extraction.1 jpFail
      [("info_comp", .vDict [("eau", .vDict [("valeur", .vStr "1")])])]
      [("eau", .vDict [("valeur", .vStr "1")])] (by rfl),
   claim6_flag_extraction.2.2.2 jpFail [("nom", .vStr "x")] (by rfl)⟩

/-- **C2 counterexample**: the claim "the summarizer returns a result
and never raises, for every property bag; any non-mapping nested value
degrades to empty" is false: a truthy non-mapping `info_comp` that is
not `\x7b`-prefixed JSON text (here the integer `5`) makes `info.get`
raise `AttributeError`, modelled by `none`. -/
theorem claim2_counterexample :
    summarize_amenities jpFail [("info_comp", .vInt 5)] = none := by decide

/-- **C2 (amended)**: malformed `\x7b`-prefixed JSON text for
`info_comp` degrades to the empty structure (all six flags false,
`couchage` from capacity alone); malformed `\x7b`-prefixed JSON text
for `places` degrades to capacity zero; and the summarizer returns
without raising whenever `info_comp` is falsy, a mapping, or a
`\x7b`-prefixed string.  (A truthy non-mapping `info_comp` that is not
a `\x7b`-prefixed string raises — see the counterexample.) -/
theorem claim2_parse_degradation :
    (∀ (jp : JsonParse) (props : PDict) (s : String),
        dgetV props "info_comp" = .vStr s → strStartsWith s "\x7b" = true →
        jp s = none →
        ∃ a t, summarize_amenities jp props = some (a, t) ∧
          a.eau = false ∧ a.bois = false ∧ a.poele = false ∧
          a.latrines = false ∧ a.cheminee = false ∧ a.couvertures = false ∧
          a.couchage = decide (0 < compute_capacity jp props) ∧
          a.feu = false) ∧
    (∀ (jp : JsonParse) (props : PDict) (s : String),
        dgetV props "places" = .vStr s → strStartsWith s "\x7b" = true →
        jp s = none → compute_capacity jp props = 0) ∧
    (∀ (jp : JsonParse) (props : PDict),
        (truthy (dgetV props "info_comp") = false ∨
         (∃ d, dgetV props "info_comp" = .vDict d) ∨
         (∃ s, dgetV props "info_comp" = .vStr s ∧
            strStartsWith s "\x7b" = true)) →
        (summarize_amenities jp props).isSome = true) := by
  refine ⟨fun jp props s hs hpre hjp => ?_, fun jp props s hs hpre hjp => ?_,
    fun jp props h => ?_⟩
  · have hne : s ≠ "" := strStartsWith_ne_empty (by decide) hpre
    have hres : resolve_nested jp (dgetV props "info_comp") = .vDict [] := by
      rw [hs]
      unfold resolve_nested
      simp [truthy, hne, hpre, hjp]
    refine ⟨amenities_of jp props [], amenities_text_of (amenities_of jp props []),
      ?_, rfl, rfl, rfl, rfl, rfl, rfl, ?_, rfl⟩
    · unfold summarize_amenities
      rw [hres]
    · show (decide (0 < compute_capacity jp props) || (getv [] "couvertures" == "1")) = _
      have : (getv ([] : PDict) "couvertures" == "1") = false := by decide
      rw [this, Bool.or_false]
  · have hne : s ≠ "" := strStartsWith_ne_empty (by decide) hpre
    have hres : resolve_nested jp (dgetV props "places") = .vDict [] := by
      rw [hs]
      unfold resolve_nested
      simp [truthy, hne, hpre, hjp]
    unfold compute_capacity capacity_string
    rw [hres]
    rfl
  · rcases h with h | ⟨d, hd⟩ | ⟨s, hs, hpre⟩
    · have hres : resolve_nested jp (dgetV props "info_comp") = .vDict [] := by
        unfold resolve_nested
        rw [h]
        cases hv : dgetV props "info_comp" <;> rfl
      unfold summarize_amenities
      rw [hres]
      rfl
    · have hres : ∃ d', resolve_nested jp (dgetV props "info_comp") = .vDict d' := by
        rw [hd]
        unfold resolve_nested
        cases htr : truthy (Value.vDict d)
        · exact ⟨[], by simp [htr]⟩
        · exact ⟨d, by simp [htr]⟩
      obtain ⟨d', hres⟩ := hres
      unfold summarize_amenities
      rw [hres]
      rfl
    · have hne : s ≠ "" := strStartsWith_ne_empty (by decide) hpre
      have hres : resolve_nested jp (dgetV props "info_comp") =
          .vDict ((jp s).getD []) := by
        rw [hs]
        unfold resolve_nested
        simp [truthy, hne, hpre]
      unfold summarize_amenities
      rw [hres]
      rfl

/-- **C2 witness**: the amended conjuncts at concrete inputs with
malformed JSON text. -/
theorem claim2_witness :
    (∃ a t, summarize_amenities jpFail [("info_comp", .vStr "\x7b broken")] =
        some (a, t) ∧
      a.eau = false ∧ a.bois = false ∧ a.poele = false ∧
      a.latrines = false ∧ a.cheminee = false ∧ a.couvertures = false ∧
      a.couchage = decide (0 < compute_capacity jpFail
          [("info_comp", .vStr "\x7b broken")]) ∧
      a.feu = false) ∧
    compute_capacity jpFail [("places", .vStr "\x7b broken")] = 0 ∧
    (summarize_amenities jpFail [("nom", .vStr "x")]).isSome = true :=
  ⟨claim2_parse_degradation.1 jpFail [("info_comp", .vStr "\x7b broken")]
      "\x7b broken" (by rfl) (by decide) (by rfl),
   claim2_parse_degradation.2.1 jpFail [("places", .vStr "\x7b broken")]
      "\x7b broken" (by rfl) (by decide) (by rfl),
   claim2_parse_degradation.2.2 jpFail [("nom", .vStr "x")]
      (Or.inl (by decide))⟩

/-! ### Claim C3: the page fetcher -/

theorem fetchGo_succ (att : Nat → AttemptOutcome) (backoff : ℚ) (n i : Nat)
    (e : Option FetchErr) :
    fetchGo att backoff (n + 1) i e =
      match att i with
      | .resp status text =>
          if status < 400 then (.ok text, [])
          else
            ((fetchGo att backoff n (i + 1) (some (.http status))).1,
             sleepDelay backoff i ::
               (fetchGo att backoff n (i + 1) (some (.http status))).2)
      | .exc m =>
          ((fetchGo att backoff n (i + 1) (some (.transport m))).1,
           sleepDelay backoff i ::
             (fetchGo att backoff n (i + 1) (some (.transport m))).2) := rfl

theorem fetchGo_all_fail (att : Nat → AttemptOutcome) (backoff : ℚ) :
    ∀ (n i : Nat) (e : Option FetchErr), 0 < n →
      (∀ j, j < n → attempt_fails (att (i + j)) = true) →
      fetchGo att backoff n i e =
        (.error (attempt_err (att (i + n - 1))),
         (List.range' i n).map (sleepDelay backoff)) := by
  intro n
  induction n with
  | zero => intro i e h0 _; exact absurd h0 (by omega)
  | succ m ih =>
    intro i e _ hf
    have hi : attempt_fails (att i) = true := by simpa using hf 0 (by omega)
    cases m with
    | zero =>
      rw [fetchGo_succ]
      cases hatt0 : att i with
      | resp s0 t0 =>
        have hs0 : ¬ s0 < 400 := by
          rw [hatt0] at hi
          by_contra hc
          simp [attempt_fails, if_pos hc] at hi
        simp [fetchGo, hatt0, attempt_err, List.range', hs0]
      | exc msg =>
        simp [fetchGo, hatt0, attempt_err, List.range']
    | succ m' =>
      have step : ∀ e' : Option FetchErr,
          fetchGo att backoff (m' + 1) (i + 1) e' =
            (.error (attempt_err (att (i + 1 + (m' + 1) - 1))),
             (List.range' (i + 1) (m' + 1)).map (sleepDelay backoff)) := by
        intro e'
        refine ih (i + 1) e' (by omega) (fun j hj => ?_)
        have := hf (j + 1) (by omega)
        rwa [show i + (j + 1) = i + 1 + j by omega] at this
      rw [fetchGo_succ]
      cases hatt0 : att i with
      | resp s0 t0 =>
        have hs0 : ¬ s0 < 400 := by
          rw [hatt0] at hi
          by_contra hc
          simp [attempt_fails, if_pos hc] at hi
        dsimp only
        rw [if_neg hs0, step]
        have harg : i + 1 + (m' + 1) - 1 = i + (m' + 1 + 1) - 1 := by omega
        simp [List.range', harg]
      | exc msg =>
        dsimp only
        rw [step]
        have harg : i + 1 + (m' + 1) - 1 = i + (m' + 1 + 1) - 1 := by omega
        simp [List.range', harg]

theorem fetchGo_success (att : Nat → AttemptOutcome) (backoff : ℚ) :
    ∀ (k n i : Nat) (e : Option FetchErr) (status : Nat) (text : String),
      k < n → (∀ j, j < k → attempt_fails (att (i + j)) = true) →
      att (i + k) = .resp status text → status < 400 →
      fetchGo att backoff n i e =
        (.ok text, (List.range' i k).map (sleepDelay backoff)) := by
  intro k
  induction k with
  | zero =>
    intro n i e status text hk _ hatt hst
    obtain ⟨m, rfl⟩ : ∃ m, n = m + 1 := ⟨n - 1, by omega⟩
    have hatt' : att i = .resp status text := by simpa using hatt
    rw [fetchGo_succ, hatt']
    simp [hst]
  | succ k' ih =>
    intro n i e status text hk hf hatt hst
    obtain ⟨m, rfl⟩ : ∃ m, n = m + 1 := ⟨n - 1, by omega⟩
    have hi : attempt_fails (att i) = true := by simpa using hf 0 (by omega)
    have hf' : ∀ j, j < k' → attempt_fails (att (i + 1 + j)) = true := by
      intro j hj
      have := hf (j + 1) (by omega)
      rwa [show i + (j + 1) = i + 1 + j by omega] at this
    have hatt' : att (i + 1 + k') = .resp status text := by
      rwa [show i + (k' + 1) = i + 1 + k' by omega] at hatt
    rw [fetchGo_succ]
    cases hatt0 : att i with
    | resp s0 t0 =>
      have hs0 : ¬ s0 < 400 := by
        rw [hatt0] at hi
        by_contra hc
        simp [attempt_fails, if_pos hc] at hi
      dsimp only
      rw [if_neg hs0,
        ih m (i + 1) (some (.http s0)) status text (by omega) hf' hatt' hst]
      simp [List.range']
    | exc msg =>
      dsimp only
      rw [ih m (i + 1) (some (.transport msg)) status text (by omega) hf' hatt' hst]
      simp [List.range']

/-- **C3 counterexample**: against a server that always answers 500,
three attempts are made and a sleep happens after *every* failed
attempt, including the last: the sleep trace has three entries
(`0.8, 1.6, 3.2`), whereas the claim ("sleeps only if attempts remain")
allows at most two. -/
theorem claim3_counterexample :
    fetch_point_html (fun _ => .resp 500 "oops") 3 (4/5) =
      (.error (.http 500),
       [sleepDelay (4/5) 0, sleepDelay (4/5) 1, sleepDelay (4/5) 2]) ∧
    (fetch_point_html (fun _ => .resp 500 "oops") 3 (4/5)).2.length = 3 := by
  constructor
  · rfl
  · rfl

/-- **C3 (amended)**: the fetcher makes up to `retries` attempts (3 at
the call site); on a success-class response it returns the body with no
further sleep; after *every* failed attempt — including the final one —
it sleeps `backoff * 2 ^ attemptIndex` (0.8, 1.6, 3.2 time-units);
after exhausting all attempts it raises the last observed error
(status-derived or transport-derived), or a generic error if no attempt
ever ran. -/
theorem claim3_fetch_retry :
    (∀ (att : Nat → AttemptOutcome) (backoff : ℚ) (retries k status : Nat)
        (text : String),
        k < retries → (∀ j, j < k → attempt_fails (att j) = true) →
        att k = .resp status text → status < 400 →
        fetch_point_html att retries backoff =
          (.ok text, (List.range k).map (sleepDelay backoff))) ∧
    (∀ (att : Nat → AttemptOutcome) (backoff : ℚ) (retries : Nat),
        0 < retries → (∀ j, j < retries → attempt_fails (att j) = true) →
        fetch_point_html att retries backoff =
          (.error (attempt_err (att (retries - 1))),
           (List.range retries).map (sleepDelay backoff))) ∧
    (∀ (att : Nat → AttemptOutcome) (backoff : ℚ),
        fetch_point_html att 0 backoff = (.error .unknown, [])) ∧
    (sleepDelay (4/5) 0 = 4/5 ∧ sleepDelay (4/5) 1 = 8/5 ∧
      sleepDelay (4/5) 2 = 16/5) := by
  refine ⟨fun att backoff retries k status text hk hf hatt hst => ?_,
    fun att backoff retries h0 hf => ?_, fun att backoff => rfl, ?_⟩
  · rw [fetch_point_html,
      fetchGo_success att backoff k retries 0 none status text hk
        (by simpa using hf) (by simpa using hatt) hst,
      List.range_eq_range']
  · rw [fetch_point_html,
      fetchGo_all_fail att backoff retries 0 none h0 (by simpa using hf),
      List.range_eq_range']
    simp
  · refine ⟨?_, ?_, ?_⟩ <;> norm_num [sleepDelay]

/-- **C3 witness**: the amended theorem at concrete attempt sequences:
success on the second attempt after one transport failure, and
exhaustion against permanent transport failure. -/
theorem claim3_witness :
    fetch_point_html (fun i => if i = 0 then .exc "t" else .resp 200 "ok2") 3
        (4/5) = (.ok "ok2", [sleepDelay (4/5) 0]) ∧
    fetch_point_html (fun _ => .exc "down") 2 (4/5) =
      (.error (.transport "down"),
       [sleepDelay (4/5) 0, sleepDelay (4/5) 1]) := by
  constructor
  · have := claim3_fetch_retry.1
      (fun i => if i = 0 then .exc "t" else .resp 200 "ok2")
      (4/5) 3 1 200 "ok2" (by decide)
      (by intro j hj; interval_cases j; decide) (by decide) (by decide)
    simpa using this
  · have := claim3_fetch_retry.2.1 (fun _ => .exc "down") (4/5) 2 (by decide)
      (by intro j hj; rfl)
    simpa using this

/-! ### Claims C4 and C10: the feature enricher -/

/-- **C4 counterexample**: the claim "every feature with a URL whose
fetch fails still gets `photos=[]`, `photos_at`, `amenities`,
`amenities_text` written" is false as universally stated: when the
amenity summarization itself raises (truthy non-mapping `info_comp`),
`process_feature` raises before writing anything, even though the fetch
error was absorbed. -/
theorem claim4_counterexample :
    (process_feature jpFail soupEmpty fetchAlways500 "T"
      [("properties", .vDict
        [("lien", .vStr "u"), ("info_comp", .vInt 5)])]).isNone = true := by
  decide

/-- **C4 (amended)**: for every feature with a detail-page URL whose
fetch fails, *and whose amenity summarization does not raise*,
`process_feature` absorbs the fetch error and still writes
`photos=[]`, `photos_at` (the timestamp plus `"Z"`), `amenities` and
`amenities_text` computed from the feature's own properties. -/
theorem claim4_fetch_failure_absorbed (jp : JsonParse)
    (soup : String → List Img) (fetchHtml : Value → Except FetchErr String)
    (now : String) (feat : PDict) (props : PDict) (err : FetchErr)
    (a : Amenities) (t : String)
    (hprops : feature_props feat = .vDict props)
    (hurl : truthy (page_url_of props) = true)
    (hfetch : fetchHtml (page_url_of props) = .error err)
    (hsum : summarize_amenities jp props = some (a, t)) :
    ∃ p' : PDict,
      process_feature jp soup fetchHtml now feat =
        some (dset feat "properties" (.vDict p')) ∧
      dgetV p' "photos" = .vList [] ∧
      dgetV p' "photos_at" = .vStr (now ++ "Z") ∧
      dgetV p' "amenities" = amenities_value a ∧
      dgetV p' "amenities_text" = .vStr t := by
  have hphotos : compute_photos soup fetchHtml (page_url_of props) = [] := by
    unfold compute_photos
    rw [hfetch]
  refine ⟨dset (dset (dset (dset props "photos" (.vList []))
      "amenities" (amenities_value a)) "amenities_text" (.vStr t))
      "photos_at" (.vStr (now ++ "Z")), ?_, ?_, ?_, ?_, ?_⟩
  · unfold process_feature
    rw [hprops]
    dsimp only
    rw [if_neg (by simp [hurl]), hphotos, hsum]
    rfl
  · rw [dgetV_dset_ne _ _ _ _ (by decide), dgetV_dset_ne _ _ _ _ (by decide),
      dgetV_dset_ne _ _ _ _ (by decide), dgetV_dset_self]
  · rw [dgetV_dset_self]
  · rw [dgetV_dset_ne _ _ _ _ (by decide), dgetV_dset_ne _ _ _ _ (by decide),
      dgetV_dset_self]
  · rw [dgetV_dset_ne _ _ _ _ (by decide), dgetV_dset_self]

/-- **C4 witness**: a concrete feature whose fetch permanently fails
(500 three times) still receives all four fields. -/
theorem claim4_witness :
    ∃ p' : PDict,
      process_feature jpFail soupEmpty fetchAlways500 "2026-10-12T00:00:00"
          [("properties", .vDict [("lien", .vStr "u")])] =
        some (dset [("properties", .vDict [("lien", .vStr "u")])]
          "properties" (.vDict p')) ∧
      dgetV p' "photos" = .vList [] ∧
      dgetV p' "photos_at" = .vStr ("2026-10-12T00:00:00" ++ "Z") ∧
      dgetV p' "amenities" = amenities_value
        ⟨false, false, false, false, false, false, false, false⟩ ∧
      dgetV p' "amenities_text" = .vStr "—" :=
  claim4_fetch_failure_absorbed jpFail soupEmpty fetchAlways500
    "2026-10-12T00:00:00" [("properties", .vDict [("lien", .vStr "u")])]
    [("lien", .vStr "u")] (.http 500)
    ⟨false, false, false, false, false, false, false, false⟩ "—"
    (by rfl) (by decide) (by rfl) (by decide)

/-- **C10**: when enrichment finds no photos, a pre-existing
`thumbnail` entry is left untouched (same lookup result, absent stays
absent) while `photos=[]` is written: the `thumbnail` key is only
written when the photo list is non-empty. -/
theorem claim10_thumbnail_preserved (jp : JsonParse)
    (soup : String → List Img) (fetchHtml : Value → Except FetchErr String)
    (now : String) (feat : PDict) (props : PDict)
    (a : Amenities) (t : String)
    (hprops : feature_props feat = .vDict props)
    (hurl : truthy (page_url_of props) = true)
    (hphotos : compute_photos soup fetchHtml (page_url_of props) = [])
    (hsum : summarize_amenities jp props = some (a, t)) :
    ∃ p' : PDict,
      process_feature jp soup fetchHtml now feat =
        some (dset feat "properties" (.vDict p')) ∧
      dget p' "thumbnail" = dget props "thumbnail" ∧
      dgetV p' "photos" = .vList [] := by
  refine ⟨dset (dset (dset (dset props "photos" (.vList []))
      "amenities" (amenities_value a)) "amenities_text" (.vStr t))
      "photos_at" (.vStr (now ++ "Z")), ?_, ?_, ?_⟩
  · unfold process_feature
    rw [hprops]
    dsimp only
    rw [if_neg (by simp [hurl]), hphotos, hsum]
    rfl
  · rw [dget_dset_ne _ _ _ (by decide), dget_dset_ne _ _ _ (by decide),
      dget_dset_ne _ _ _ (by decide), dget_dset_ne _ _ _ (by decide)]
  · rw [dgetV_dset_ne _ _ _ _ (by decide), dgetV_dset_ne _ _ _ _ (by decide),
      dgetV_dset_ne _ _ _ _ (by decide), dgetV_dset_self]

/-- **C10 witness**: a feature with an existing thumbnail and a failing
fetch keeps the old thumbnail value while `photos` becomes `[]`. -/
theorem claim10_witness :
    ∃ p' : PDict,
      process_feature jpFail soupEmpty fetchAlways500 "T"
          [("properties", .vDict
            [("lien", .vStr "u"), ("thumbnail", .vStr "old")])] =
        some (dset [("properties", .vDict
            [("lien", .vStr "u"), ("thumbnail", .vStr "old")])]
          "properties" (.vDict p')) ∧
      dget p' "thumbnail" =
        dget [("lien", .vStr "u"), ("thumbnail", .vStr "old")] "thumbnail" ∧
      dgetV p' "photos" = .vList [] :=
  claim10_thumbnail_preserved jpFail soupEmpty fetchAlways500 "T"
    [("properties", .vDict [("lien", .vStr "u"), ("thumbnail", .vStr "old")])]
    [("lien", .vStr "u"), ("thumbnail", .vStr "old")]
    ⟨false, false, false, false, false, false, false, false⟩ "—"
    (by rfl) (by decide) (by rfl) (by decide)

/-! ### Claim C1: the pipeline driver -/

/-- **C1**: the claim says the driver collects results in the order the
tasks were submitted, so the i-th output feature is the enriched i-th
input feature, for every concurrency ≥ 1.  The code instead appends
`fut.result()` in the order `as_completed` yields the futures.  With 2
features and concurrency 2, the completion order `[1, 0]` (the second
task finishes first) is a permutation of the submitted futures, and the
output list is `["f1", "f0"]` — the reverse of the input order: the
invariant fails while cardinality is preserved. -/
theorem claim1_driver_collects_in_completion_order :
    main_out_features (fun s => s) ["f0", "f1"] [1, 0] = ["f1", "f0"] ∧
    main_out_features (fun s => s) ["f0", "f1"] [1, 0] ≠ ["f0", "f1"] ∧
    List.Perm [1, 0] (List.range 2) ∧
    (main_out_features (fun s => s) ["f0", "f1"] [1, 0]).length =
      (["f0", "f1"] : List String).length := by
  refine ⟨by decide, by decide, by decide, by decide⟩
